import Mathlib

/-!
Verification development for the semantic-release Release Resolution Engine.

The definitions below are a shallow embedding of `cmd/semantic-release/main.go`
(`cliHandler`) and of the GitHub-backed repository provider in `pkg/semrel`
(`GetLatestRelease`, `CreateRelease`, `parseGithubCommit`).  Machine strings are
modelled as Lean `String` values manipulated through their underlying character
lists, so that every definition reduces in the kernel.  Parts of `pkg/semrel`
that are not present in the source tree (`GetNewVersion`,
`Releases.GetLatestRelease`, `GetChangelog`, the two commit regular
expressions, and the `Masterminds/semver` library functions) are modelled from
the specification; each such definition says so in its doc comment.
-/

/-! ### List-of-characters string helpers (Go `strings` package semantics) -/

/-- Go `strings.Contains` on character lists: `sub` occurs contiguously in `l`. -/
def listContains (l sub : List Char) : Bool :=
  match l with
  | [] => sub.isEmpty
  | _ :: t => sub.isPrefixOf l || listContains t sub

/-- Go `strings.Contains s sub`. -/
def containsSubstring (s sub : String) : Bool :=
  listContains s.data sub.data

/-- Go `strings.TrimPrefix s pre`: drop `pre` when it is a prefix, else `s`. -/
def trimPref (s pre : String) : String :=
  if pre.data.isPrefixOf s.data then ⟨s.data.drop pre.data.length⟩ else s

/-- String starts-with test used by the embedding. -/
def strStartsWith (s pre : String) : Bool :=
  pre.data.isPrefixOf s.data

/-- Go `strings.TrimSpace`. -/
def trimSpace (s : String) : String :=
  ⟨((s.data.dropWhile Char.isWhitespace).reverse.dropWhile Char.isWhitespace).reverse⟩

/-- Go `strings.Trim s cutset`: remove leading and trailing characters that
belong to the cutset (note: a character set, not a prefix/suffix). -/
def trimCutset (s cutset : String) : String :=
  ⟨((s.data.dropWhile (fun c => cutset.data.contains c)).reverse.dropWhile
      (fun c => cutset.data.contains c)).reverse⟩

/-- Split a character list on every occurrence of the single character `sep`. -/
def splitAllAux (sep : Char) : List Char → List Char → List (List Char)
  | [], cur => [cur.reverse]
  | c :: t, cur => if c = sep then cur.reverse :: splitAllAux sep t [] else splitAllAux sep t (c :: cur)

/-- Split on a single-character separator (Go `strings.Split` with 1-char sep). -/
def splitAll (sep : Char) (l : List Char) : List (List Char) :=
  splitAllAux sep l []

/-- Split a string into its lines (Go `strings.Split(s, "\n")`). -/
def splitLines (s : String) : List String :=
  (splitAll '\n' s.data).map (fun l => ⟨l⟩)

/-- Split at the first occurrence of character `sep`, if any. -/
def splitFirst (sep : Char) : List Char → Option (List Char × List Char)
  | [] => none
  | c :: t => if c = sep then some ([], t) else (splitFirst sep t).map (fun p => (c :: p.1, p.2))

/-- Split at the first occurrence of the two-character separator `": "`. -/
def splitColonSpace : List Char → Option (List Char × List Char)
  | [] => none
  | ':' :: ' ' :: rest => some ([], rest)
  | c :: rest => (splitColonSpace rest).map (fun p => (c :: p.1, p.2))

/-- Lowercase a string character by character. -/
def lowerStr (s : String) : String :=
  ⟨s.data.map Char.toLower⟩

/-- Numeric value of a list of decimal digits. -/
def digitsToNat (l : List Char) : Nat :=
  l.foldl (fun n c => n * 10 + (c.toNat - 48)) 0

/-- Decimal digits of a natural number (most significant first), with fuel. -/
def natDigits : Nat → Nat → List Char
  | 0, _ => []
  | f + 1, n =>
      if n = 0 then [] else natDigits f (n / 10) ++ [Char.ofNat (48 + n % 10)]

/-- Render a natural number in decimal. -/
def natToStr (n : Nat) : String :=
  if n = 0 then "0" else ⟨natDigits (n + 1) n⟩

/-! ### Semantic versions (`Masterminds/semver` boundary, modelled from the spec) -/

/-- Modelled from the spec: a semantic version `major.minor.patch` with
optional pre-release and build metadata (§3 Version of the spec; the
`Masterminds/semver` library is an external dependency, not in src). -/
structure SemVer where
  major : Nat
  minor : Nat
  patch : Nat
  pre : String
  buildMeta : String
deriving DecidableEq, Repr

/-- The zero version `0.0.0` (Go `semver.Version{}` zero value). -/
def zeroVer : SemVer := ⟨0, 0, 0, "", ""⟩

/-- Core `major.minor.patch` rendering of a version. -/
def verCore (v : SemVer) : String :=
  natToStr v.major ++ "." ++ natToStr v.minor ++ "." ++ natToStr v.patch

/-- Modelled from the spec: `Version.String()` of the semver library. -/
def verString (v : SemVer) : String :=
  verCore v ++ (if v.pre = "" then "" else "-" ++ v.pre)
    ++ (if v.buildMeta = "" then "" else "+" ++ v.buildMeta)

/-- Parse one dot-separated numeric component. -/
def parseNumPart (l : List Char) : Option Nat :=
  if l ≠ [] ∧ l.all Char.isDigit then some (digitsToNat l) else none

/-- Modelled from the spec: `semver.NewVersion` of the external library —
accept an optional leading `v`, then `major[.minor[.patch]]` numeric
components, an optional `-pre` component and an optional `+build` component;
anything else is not a valid semantic version. -/
def NewVersion (s : String) : Option SemVer :=
  let l := if s.data.head? = some 'v' then s.data.tail else s.data
  let coreMeta := match splitFirst '+' l with
    | none => (l, ([] : List Char))
    | some p => p
  let numsPre := match splitFirst '-' coreMeta.1 with
    | none => (coreMeta.1, ([] : List Char))
    | some p => p
  match splitAll '.' numsPre.1 with
  | [a] => (parseNumPart a).map (fun x => ⟨x, 0, 0, ⟨numsPre.2⟩, ⟨coreMeta.2⟩⟩)
  | [a, b] => match parseNumPart a, parseNumPart b with
      | some x, some y => some ⟨x, y, 0, ⟨numsPre.2⟩, ⟨coreMeta.2⟩⟩
      | _, _ => none
  | [a, b, c] => match parseNumPart a, parseNumPart b, parseNumPart c with
      | some x, some y, some z => some ⟨x, y, z, ⟨numsPre.2⟩, ⟨coreMeta.2⟩⟩
      | _, _, _ => none
  | _ => none

/-- Strict ordering on character lists (used for pre-release comparison). -/
def charListLt : List Char → List Char → Bool
  | [], [] => false
  | [], _ :: _ => true
  | _ :: _, [] => false
  | a :: as, b :: bs => if a = b then charListLt as bs else decide (a.toNat < b.toNat)

/-- Modelled from the spec: semantic-versioning precedence — numeric triples
compared lexicographically by major, then minor, then patch; a pre-release
sorts below the release with the same numeric triple (§3 Version). -/
def semverLtB (a b : SemVer) : Bool :=
  if a.major ≠ b.major then decide (a.major < b.major)
  else if a.minor ≠ b.minor then decide (a.minor < b.minor)
  else if a.patch ≠ b.patch then decide (a.patch < b.patch)
  else if a.pre = b.pre then false
  else if a.pre = "" then false
  else if b.pre = "" then true
  else charListLt a.pre.data b.pre.data

/-- Modelled from the spec: `Version.IncMajor` — increment major, zero minor
and patch, drop pre-release and build metadata. -/
def IncMajor (v : SemVer) : SemVer := ⟨v.major + 1, 0, 0, "", ""⟩

/-- Modelled from the spec: `Version.IncMinor` — increment minor, zero patch,
drop pre-release and build metadata. -/
def IncMinor (v : SemVer) : SemVer := ⟨v.major, v.minor + 1, 0, "", ""⟩

/-- Modelled from the spec: `Version.IncPatch` — if the version carries a
pre-release, drop it keeping the numeric triple; otherwise increment patch;
build metadata is dropped either way. -/
def IncPatch (v : SemVer) : SemVer :=
  if v.pre ≠ "" then ⟨v.major, v.minor, v.patch, "", ""⟩
  else ⟨v.major, v.minor, v.patch + 1, "", ""⟩

/-! ### Data model (`pkg/semrel` types) -/

/-- `semrel.Change`: tri-state version-bump importance flags of one commit. -/
structure Change where
  Major : Bool
  Minor : Bool
  Patch : Bool
deriving DecidableEq, Repr

/-- `semrel.Commit`: one classified commit.  Go's `Type` field is spelled
`typ` here because `Type` is reserved in Lean; `Raw` is the message split on
newlines, `Message` is the parsed subject. -/
structure Commit where
  SHA : String
  Raw : List String
  typ : String
  Scope : String
  Message : String
  change : Change
deriving DecidableEq, Repr

/-- `semrel.Release`: the tag/commit pair selected as previous release. -/
structure Release where
  SHA : String
  version : SemVer
deriving DecidableEq, Repr

/-- One GitHub tag reference as returned by `Git.ListRefs` (ref name, object
type, object SHA). -/
structure TagRef where
  ref : String
  objType : String
  objSHA : String
deriving DecidableEq, Repr

/-- One page of the paginated `Git.ListRefs` response: HTTP status code,
transport-error flag, and the references of the page. -/
structure Page where
  status : Nat
  err : Bool
  refs : List TagRef
deriving DecidableEq, Repr

/-! ### Commit Classifier (`parseGithubCommit`) -/

/-- Character class `\w` of the commit-subject pattern. -/
def isWordChar (c : Char) : Bool :=
  c.isAlpha || c.isDigit || c = '_'

/-- Modelled from the spec: the conventional-commit subject grammar
`type(scope): subject` with the scope parenthetical optional (§4.1; the
`commitPattern` regular expression of `pkg/semrel` is not in src).  Returns
`(type, scope, subject)` when the line matches, with scope `""` when the
parenthetical is absent. -/
def matchCommitPattern (line : String) : Option (String × String × String) :=
  match splitColonSpace line.data with
  | none => none
  | some (head, subj) =>
      if head.all isWordChar then some (⟨head⟩, "", ⟨subj⟩)
      else
        match splitFirst '(' head with
        | none => none
        | some (t, rest) =>
            if t.all isWordChar ∧ rest.getLast? = some ')'
                ∧ rest.dropLast.all (fun c => c ≠ '(' ∧ c ≠ ')') then
              some (⟨t⟩, ⟨rest.dropLast⟩, ⟨subj⟩)
            else none

/-- Modelled from the spec: the breaking-change marker search over the whole
raw message (§4.1; the `breakingPattern` regular expression of `pkg/semrel` is
not in src) — a dedicated `BREAKING CHANGE` footer token anywhere in the
message. -/
def breakingPattern (msg : String) : Bool :=
  containsSubstring msg "BREAKING CHANGE"

/-- `parseGithubCommit` (pkg/semrel github provider): classify one raw GitHub
commit, given the configured package scope `pkg`. -/
def parseGithubCommit (sha msg pkg : String) : Commit :=
  let raw := splitLines msg
  let c0 : Commit := ⟨sha, raw, "", "", "", ⟨false, false, false⟩⟩
  match raw with
  | [] => c0
  | first :: _ =>
      match matchCommitPattern first with
      | none => c0
      | some (t, s, subj) =>
          if pkg != "" && pkg == s then
            let ty := lowerStr t
            ⟨sha, raw, ty, s, subj, ⟨breakingPattern msg, ty == "feat", ty == "fix"⟩⟩
          else c0

/-! ### Release Selector (`GetLatestRelease`) -/

/-- Modelled from the spec: `Releases.GetLatestRelease` of `pkg/semrel` (not
in src, §4.3) — restrict the pool to the maintenance version range when one is
configured (range satisfaction is the library's constraint check, passed in as
`rangeSat`), restrict to versions whose numeric core starts with the hotfix
suffix when one is configured, then pick the greatest version by semver
precedence with first-seen winning ties; an empty pool yields the zero
Release. -/
def ReleasesGetLatest (rels : List Release) (vrange : String)
    (rangeSat : String → SemVer → Bool) (lastVersionHotfix : String) : Release :=
  let pool := if vrange ≠ "" then rels.filter (fun r => rangeSat vrange r.version) else rels
  let pool := if lastVersionHotfix ≠ "" then
      pool.filter (fun r => strStartsWith (verCore r.version) lastVersionHotfix)
    else pool
  match pool with
  | [] => ⟨"", zeroVer⟩
  | h :: t => t.foldl (fun best c => if semverLtB best.version c.version then c else best) h

/-- The stripped candidate tag of one reference: drop the `refs/tags/` ref
prefix, then strip the `<pkg>-release-` prefix when the tag contains it
(`GetLatestRelease` loop body, pkg/semrel github provider). -/
def candidateTag (pkg rawRef : String) : String :=
  let tag := trimPref rawRef "refs/tags/"
  if containsSubstring tag (pkg ++ "-release-") then trimPref tag (pkg ++ "-release-") else tag

/-- Per-candidate filter of `GetLatestRelease` (pkg/semrel github provider):
regex filter on the stripped tag, commit-object filter, then semver parse;
any failure silently discards the candidate. -/
def processRef (pkg : String) (re : Option (String → Bool)) (r : TagRef) : Option Release :=
  let tag := candidateTag pkg r.ref
  if (match re with | some p => !(p tag) | none => false) then none
  else if r.objType != "commit" then none
  else match NewVersion tag with
    | none => none
    | some v => some ⟨r.objSHA, v⟩

/-- Page loop of `GetLatestRelease` (pkg/semrel github provider): a 404 status
means no tags exist and yields the zero Release; a transport error aborts;
otherwise the page's candidates are accumulated and the next page fetched. -/
def getLatestReleaseAux (vrange : String) (re : Option (String → Bool))
    (pkg hotfix : String) (rangeSat : String → SemVer → Bool) :
    List Page → List Release → Except Unit Release
  | [], acc => .ok (ReleasesGetLatest acc vrange rangeSat hotfix)
  | p :: rest, acc =>
      if p.status = 404 then .ok ⟨"", zeroVer⟩
      else if p.err then .error ()
      else getLatestReleaseAux vrange re pkg hotfix rangeSat rest
        (acc ++ p.refs.filterMap (processRef pkg re))

/-- `GetLatestRelease` (pkg/semrel github provider), over the fetched pages. -/
def GetLatestRelease (vrange : String) (re : Option (String → Bool))
    (pkg hotfix : String) (rangeSat : String → SemVer → Bool)
    (pages : List Page) : Except Unit Release :=
  getLatestReleaseAux vrange re pkg hotfix rangeSat pages []

/-! ### Version Resolver (`GetNewVersion` and the cliHandler fallback) -/

/-- A version-bump decision. -/
inductive Bump where
  | major
  | minor
  | patch
deriving DecidableEq, Repr

/-- Modelled from the spec: the Version Resolver fold (§4.2; `GetNewVersion`
of `pkg/semrel` is not in src) — OR the Change flags across the commit set
with strict precedence major over minor over patch, `none` when no qualifying
commit is present. -/
def foldChange (commits : List Commit) : Option Bump :=
  if commits.any (fun c => c.change.Major) then some .major
  else if commits.any (fun c => c.change.Minor) then some .minor
  else if commits.any (fun c => c.change.Patch) then some .patch
  else none

/-- Increment the pre-release component monotonically within the same numeric
triple: bump a trailing numeric dot-component, else append `.1`. -/
def nextPre (p : String) : String :=
  match splitAll '.' p.data with
  | [] => "1"
  | parts =>
      match parts.getLast? with
      | some lastPart =>
          if lastPart ≠ [] ∧ lastPart.all Char.isDigit then
            String.intercalate "." ((parts.dropLast.map (fun l => String.mk l))
              ++ [natToStr (digitsToNat lastPart + 1)])
          else p ++ ".1"
      | none => "1"

/-- Modelled from the spec: applying the chosen bump (§4.2) — standard semver
increment, except that on a maintained pre-release line (maintained version
carrying a pre-release component) the pre-release numbering increments within
the same numeric triple. -/
def applyBump (maintainedVersion : String) (v : SemVer) (b : Bump) : SemVer :=
  if containsSubstring maintainedVersion "-" then ⟨v.major, v.minor, v.patch, nextPre v.pre, ""⟩
  else
    match b with
    | .major => IncMajor v
    | .minor => IncMinor v
    | .patch => IncPatch v

/-! ### Configuration and boundary inputs of `cliHandler` -/

/-- The configuration fields of `config.Config` consumed by the embedded part
of `cliHandler` (`conf.BetaRelease.MaintainedVersion` is flattened to
`MaintainedVersion`). -/
structure Config where
  BaseBranch : String
  CurrentBranch : String
  Pkgname : String
  Match : String
  MaintainedVersion : String
  CommitHash : String
  Changelog : String
  Update : String
  Dry : Bool
  Prerelease : Bool
  Noci : Bool
  Ghr : Bool
  Vf : Bool
deriving DecidableEq, Repr

/-- The CI-provider detection results consumed by `cliHandler`. -/
structure CI where
  branch : String
  sha : String
deriving DecidableEq, Repr

/-- The provider-side and filesystem inputs of one `cliHandler` run:
construction/info/commit fetch outcomes, the tag pages, whether the CI
condition holds, at which external call (if any) `CreateRelease` fails,
whether each of the post-release file writes (`.ghr`, `.version`,
`update.Apply`) succeeds, and the repository slug parts. -/
structure ProviderInput where
  repoErr : Bool
  infoRes : Except Unit (String × Bool)
  ciCondOk : Bool
  pages : List Page
  commitsRes : Except Unit (List Commit)
  createFailAt : Option Nat
  ghrWriteOk : Bool
  vfWriteOk : Bool
  updateOk : Bool
  owner : String
  repo : String

/-- The externally visible side effects `cliHandler` can perform, in order. -/
inductive Effect where
  | writeChangelog (path content : String)
  | createRef (ref sha : String)
  | createReleaseObj (tagName targetSHA body : String) (isPre : Bool)
  | writeGhr (content : String)
  | writeVersionFile (content : String)
  | applyUpdate (path version : String)
deriving DecidableEq, Repr

/-- The error exits of `cliHandler` (each `exitIfError` site); `ghrWrite`,
`versionWrite` and `updateApply` are the post-release write failures that
occur after the release has been created. -/
inductive CliErr where
  | repoInit
  | info
  | noCurrentBranch
  | maintainedOnDefault
  | ciCond
  | latestRelease
  | noPrereleasePossible
  | commits
  | dryRun
  | commitNotFound
  | createRelease
  | ghrWrite
  | versionWrite
  | updateApply
deriving DecidableEq, Repr

/-- Outcome of a `cliHandler` run: the side effects performed (in order)
before it returned, and the error it exited with, if any. -/
structure CliResult where
  effects : List Effect
  err : Option CliErr
deriving DecidableEq, Repr

/-! ### Changelog Generator and release creation -/

/-- First seven characters of a SHA. -/
def shortSHA (s : String) : String :=
  ⟨s.data.take 7⟩

/-- The distinct non-empty commit types in order of first appearance. -/
def changelogTypes (commits : List Commit) : List String :=
  commits.foldl (fun acc c => if c.typ == "" || acc.contains c.typ then acc else acc ++ [c.typ]) []

/-- One changelog section: the commits of one type, input order preserved. -/
def sectionFor (commits : List Commit) (t : String) : String :=
  "#### " ++ t ++ "\n"
    ++ String.join ((commits.filter (fun c => c.typ == t)).map
      (fun c => "- " ++ c.Message ++ " (" ++ shortSHA c.SHA ++ ")\n"))

/-- Modelled from the spec: the Changelog Generator (§4.4; `GetChangelog` of
`pkg/semrel` is not in src) — a heading naming the new version and the
previous one, then one section per non-empty commit type grouping subjects
with shortened SHAs; pure and deterministic. -/
def GetChangelog (commits : List Commit) (release : Release) (newVer : SemVer) : String :=
  "## v" ++ verString newVer ++ " (previous: v" ++ verString release.version ++ ")\n\n"
    ++ String.join ((changelogTypes commits).map (sectionFor commits))

/-- `CreateRelease` (pkg/semrel github provider): create the tag reference at
the release SHA, then the provider release object, then — only when the target
branch string equals `"master"` — the persistent `<pkg>-branch-v<version>`
branch reference.  `failAt` models which of the three external calls (0, 1, 2)
fails, `none` meaning all succeed; the effects performed before the failing
call are retained.  The `sha` parameter is unused exactly as in the source,
where the guard that consumed it is commented out. -/
def CreateRelease (changelog : String) (newVersion : SemVer) (prerelease : Bool)
    (branch sha currentSHA pkgName : String) (failAt : Option Nat) :
    List Effect × Option Unit :=
  let tag := pkgName ++ "-release-v" ++ verString newVersion
  let isPrerelease := prerelease || newVersion.pre != ""
  if failAt = some 0 then ([], some ()) else
  let e1 := Effect.createRef ("refs/tags/" ++ tag) currentSHA
  if failAt = some 1 then ([e1], some ()) else
  let e2 := Effect.createReleaseObj tag currentSHA changelog isPrerelease
  if branch = "master" then
    if failAt = some 2 then ([e1, e2], some ()) else
    let btag := pkgName ++ "-branch-v" ++ verString newVersion
    ([e1, e2, Effect.createRef ("refs/heads/" ++ btag) currentSHA], none)
  else ([e1, e2], none)

/-! ### `cliHandler` (cmd/semantic-release/main.go) -/

/-- Anchor-commit selection loop of `cliHandler`: start from the first
commit's SHA, overwrite with any commit whose SHA equals the configured
commit hash, and record whether such a commit was found. -/
def anchorSHA (commits : List Commit) (hash : String) : String × Bool :=
  match commits with
  | [] => ("", false)
  | c0 :: _ =>
      commits.foldl (fun acc j => if j.SHA == hash then (j.SHA, true) else acc) (c0.SHA, false)

/-- New-version computation of `cliHandler`: `GetNewVersion`, falling back to
a patch bump when the current branch differs from the configured base branch
and to a minor bump otherwise. -/
def computeNewVersion (conf : Config) (commits : List Commit) (release : Release) : SemVer :=
  match (foldChange commits).map (applyBump conf.MaintainedVersion release.version) with
  | some v => v
  | none =>
      if conf.CurrentBranch != conf.BaseBranch then IncPatch release.version
      else IncMinor release.version

/-- Tail of `cliHandler` from changelog generation on: write the changelog
file when configured, run the anchor-commit check, create the release, then
perform the three fallible post-release steps (`.ghr` write, `.version`
write, `update.Apply`), each of which exits the run with the effects already
performed when it fails.  The changelog `WriteFile` itself is modelled as
succeeding: a failure there would abort the run with no side effect
performed. -/
def finishRelease (conf : Config) (currentBranch currentSha : String)
    (commits : List Commit) (release : Release) (newVer : SemVer)
    (pd : ProviderInput) : CliResult :=
  let changelog := GetChangelog commits release newVer
  let pre := if conf.Changelog ≠ "" then [Effect.writeChangelog conf.Changelog changelog] else []
  let a := anchorSHA commits conf.CommitHash
  if a.2 = false then ⟨pre, some .commitNotFound⟩
  else
    let cr := CreateRelease changelog newVer conf.Prerelease currentBranch currentSha a.1
      conf.Pkgname pd.createFailAt
    match cr.2 with
    | some _ => ⟨pre ++ cr.1, some .createRelease⟩
    | none =>
        if conf.Ghr && !pd.ghrWriteOk then ⟨pre ++ cr.1, some .ghrWrite⟩
        else
          let e3 := pre ++ cr.1 ++ (if conf.Ghr then
              [Effect.writeGhr ("-u " ++ pd.owner ++ " -r " ++ pd.repo ++ " v" ++ verString newVer)]
            else [])
          if conf.Vf && !pd.vfWriteOk then ⟨e3, some .versionWrite⟩
          else
            let e4 := e3 ++ (if conf.Vf then [Effect.writeVersionFile (verString newVer)] else [])
            if conf.Update != "" && !pd.updateOk then ⟨e4, some .updateApply⟩
            else ⟨e4 ++ (if conf.Update ≠ "" then [Effect.applyUpdate conf.Update (verString newVer)] else []), none⟩

/-- Middle of `cliHandler` after the previous release is selected: the
maintained-pre-release guard, the commit fetch, the new-version computation
with fallback, and the dry-run exit. -/
def afterRelease (conf : Config) (currentBranch currentSha : String)
    (release : Release) (pd : ProviderInput) : CliResult :=
  if containsSubstring conf.MaintainedVersion "-" && (release.version.pre == "") then
    ⟨[], some .noPrereleasePossible⟩
  else
    match pd.commitsRes with
    | .error _ => ⟨[], some .commits⟩
    | .ok commits =>
        let newVer := computeNewVersion conf commits release
        if conf.Dry then ⟨[], some .dryRun⟩
        else finishRelease conf currentBranch currentSha commits release newVer pd

/-- `cliHandler` (cmd/semantic-release/main.go): the full resolution pipeline,
with the CI detection, provider responses and the regex/range matchers of the
external libraries supplied as inputs.  Each `exitIfError` site becomes an
early return carrying the effects performed so far. -/
def cliHandler (conf : Config) (ci : CI) (pd : ProviderInput)
    (regexMatch : String → String → Bool) (rangeSat : String → SemVer → Bool) : CliResult :=
  if pd.repoErr then ⟨[], some .repoInit⟩
  else
    match pd.infoRes with
    | .error _ => ⟨[], some .info⟩
    | .ok info =>
        let currentBranch := if conf.CurrentBranch != "" then conf.CurrentBranch else ci.branch
        if currentBranch == "" then ⟨[], some .noCurrentBranch⟩
        else if conf.MaintainedVersion != "" && currentBranch == info.1 then
          ⟨[], some .maintainedOnDefault⟩
        else
          let currentSha := if conf.CurrentBranch != "" then conf.CurrentBranch else ci.sha
          if !conf.Noci && !pd.ciCondOk then ⟨[], some .ciCond⟩
          else
            let m := trimSpace conf.Match
            let matchRegex : Option (String → Bool) :=
              if m != "" then some (regexMatch ("^" ++ m)) else none
            let lastVersionHotfix :=
              if conf.CurrentBranch != conf.BaseBranch then
                trimCutset conf.CurrentBranch (conf.Pkgname ++ "-branch-v")
              else ""
            match GetLatestRelease conf.MaintainedVersion matchRegex conf.Pkgname
                lastVersionHotfix rangeSat pd.pages with
            | .error _ => ⟨[], some .latestRelease⟩
            | .ok release => afterRelease conf currentBranch currentSha release pd

/-- A side effect that creates a tag reference or a provider release object. -/
def isReleaseEffect : Effect → Bool
  | .createRef _ _ => true
  | .createReleaseObj _ _ _ _ => true
  | _ => false

/-- A side effect that creates a branch reference. -/
def isBranchCreate : Effect → Bool
  | .createRef r _ => strStartsWith r "refs/heads/"
  | _ => false

/-- A changelog-file write effect. -/
def isChangelogWrite : Effect → Bool
  | .writeChangelog _ _ => true
  | _ => false

/-- An error raised by the release-creation step itself or by one of the
post-release file writes that run only after the release exists. -/
def isReleaseStepErr : CliErr → Bool
  | .createRelease => true
  | .ghrWrite => true
  | .versionWrite => true
  | .updateApply => true
  | _ => false

/-! ### Helper lemmas -/

theorem strMk_data (s : String) : String.mk s.data = s := by
  cases s
  rfl

theorem contains_of_isPrefixOf {l sub : List Char} (h : sub.isPrefixOf l = true) :
    listContains l sub = true := by
  cases l with
  | nil =>
      cases sub with
      | nil => rfl
      | cons c t => simp [List.isPrefixOf] at h
  | cons c t => simp [listContains, h]

theorem anchor_foldl (hash : String) (l : List Commit) (acc : String × Bool) :
    (l.foldl (fun acc j => if j.SHA == hash then (j.SHA, true) else acc) acc)
      = if l.any (fun c => c.SHA == hash) then (hash, true) else acc := by
  induction l generalizing acc with
  | nil => simp
  | cons j t ih =>
      simp only [List.foldl_cons, List.any_cons, ih]
      by_cases hj : j.SHA == hash
      · have heq : j.SHA = hash := by simpa using hj
        by_cases ht : t.any (fun c => c.SHA == hash) <;> simp [hj, ht, heq]
      · simp only [Bool.not_eq_true] at hj
        simp [hj]

theorem anchor_snd (commits : List Commit) (hash : String) :
    (anchorSHA commits hash).2 = commits.any (fun c => c.SHA == hash) := by
  cases commits with
  | nil => simp [anchorSHA]
  | cons c0 t =>
      rw [anchorSHA, anchor_foldl]
      split <;> simp_all

theorem anchor_found (commits : List Commit) (hash : String)
    (h : commits.any (fun c => c.SHA == hash) = true) :
    anchorSHA commits hash = (hash, true) := by
  cases commits with
  | nil => simp at h
  | cons c0 t =>
      rw [anchorSHA, anchor_foldl, h]
      simp

theorem tags_not_heads (t : String) :
    strStartsWith ("refs/tags/" ++ t) "refs/heads/" = false := by
  simp [strStartsWith, String.data_append, List.isPrefixOf]

theorem finishRelease_cases (conf : Config) (cb cs : String) (commits : List Commit)
    (release : Release) (newVer : SemVer) (pd : ProviderInput) :
    (∃ effs, effs.any isReleaseEffect = false
        ∧ finishRelease conf cb cs commits release newVer pd = ⟨effs, some CliErr.commitNotFound⟩)
    ∨ (∃ effs, finishRelease conf cb cs commits release newVer pd
        = ⟨effs, some CliErr.createRelease⟩)
    ∨ (∃ effs, finishRelease conf cb cs commits release newVer pd
        = ⟨effs, some CliErr.ghrWrite⟩)
    ∨ (∃ effs, finishRelease conf cb cs commits release newVer pd
        = ⟨effs, some CliErr.versionWrite⟩)
    ∨ (∃ effs, finishRelease conf cb cs commits release newVer pd
        = ⟨effs, some CliErr.updateApply⟩)
    ∨ (∃ effs, finishRelease conf cb cs commits release newVer pd = ⟨effs, none⟩) := by
  simp only [finishRelease]
  repeat' split
  all_goals first
    | (left; exact ⟨_, by rfl, rfl⟩)
    | (right; left; exact ⟨_, rfl⟩)
    | (right; right; left; exact ⟨_, rfl⟩)
    | (right; right; right; left; exact ⟨_, rfl⟩)
    | (right; right; right; right; left; exact ⟨_, rfl⟩)
    | (right; right; right; right; right; exact ⟨_, rfl⟩)

theorem afterRelease_cases (conf : Config) (cb cs : String) (release : Release)
    (pd : ProviderInput) :
    (∃ e, afterRelease conf cb cs release pd = ⟨[], some e⟩)
    ∨ (∃ commits newVer, afterRelease conf cb cs release pd
        = finishRelease conf cb cs commits release newVer pd) := by
  simp only [afterRelease]
  repeat' split
  all_goals first
    | (left; exact ⟨_, rfl⟩)
    | (right; exact ⟨_, _, rfl⟩)

theorem cliHandler_cases (conf : Config) (ci : CI) (pd : ProviderInput)
    (rm : String → String → Bool) (rs : String → SemVer → Bool) :
    (∃ e, cliHandler conf ci pd rm rs = ⟨[], some e⟩)
    ∨ (∃ cb cs release, cliHandler conf ci pd rm rs = afterRelease conf cb cs release pd) := by
  simp only [cliHandler]
  repeat' split
  all_goals first
    | (left; exact ⟨_, rfl⟩)
    | (right; exact ⟨_, _, _, rfl⟩)

theorem finishRelease_found_mem (conf : Config) (cb cs : String) (commits : List Commit)
    (release : Release) (newVer : SemVer) (pd : ProviderInput) (x : Effect)
    (h : (anchorSHA commits conf.CommitHash).2 = true)
    (hx : x ∈ (CreateRelease (GetChangelog commits release newVer) newVer conf.Prerelease cb cs
        (anchorSHA commits conf.CommitHash).1 conf.Pkgname pd.createFailAt).1) :
    x ∈ (finishRelease conf cb cs commits release newVer pd).effects := by
  simp only [finishRelease]
  rw [if_neg (by simp [h])]
  repeat' split
  all_goals simp [hx]

theorem finishRelease_err_found (conf : Config) (cb cs : String) (commits : List Commit)
    (release : Release) (newVer : SemVer) (pd : ProviderInput)
    (h : (anchorSHA commits conf.CommitHash).2 = true) :
    (finishRelease conf cb cs commits release newVer pd).err
      ≠ some CliErr.commitNotFound := by
  simp only [finishRelease]
  rw [if_neg (by simp [h])]
  repeat' split
  all_goals simp

/-! ### Claim theorems -/

/-- Claim C1 counterexample: a resolution attempt that fails with the
commit-not-found error (anchor hash `zzz` absent from the fetched commits)
has nevertheless already written the changelog file, refuting the claim that
a failed resolution never produces a changelog write. -/
theorem claim_C1_counterexample :
    (cliHandler
        ⟨"main", "feature", "p", "", "", "zzz", "CHANGELOG.md", "", false, false, true, false, false⟩
        ⟨"feature", "sha0"⟩
        ⟨false, .ok ("main", false), true, [],
          .ok [⟨"abc", ["m"], "", "", "", ⟨false, false, false⟩⟩], none, true, true, true, "o", "r"⟩
        (fun _ _ => true) (fun _ _ => true)).err = some CliErr.commitNotFound
    ∧ ((cliHandler
        ⟨"main", "feature", "p", "", "", "zzz", "CHANGELOG.md", "", false, false, true, false, false⟩
        ⟨"feature", "sha0"⟩
        ⟨false, .ok ("main", false), true, [],
          .ok [⟨"abc", ["m"], "", "", "", ⟨false, false, false⟩⟩], none, true, true, true, "o", "r"⟩
        (fun _ _ => true) (fun _ _ => true)).effects.any isChangelogWrite) = true :=
  ⟨by decide, by decide⟩

/-- Claim C1 amended: a failing resolution attempt has created no tag and no
release object unless the failure occurred in the release-creation step or in
one of the post-release file writes that run only after the release exists,
and has performed no side effect at all unless the failure is one of those or
the commit-not-found anchor check — which is evaluated only after the
changelog file has been written, so the changelog write is not ordered last. -/
theorem claim_C1_amended (conf : Config) (ci : CI) (pd : ProviderInput)
    (rm : String → String → Bool) (rs : String → SemVer → Bool) (e : CliErr)
    (h : (cliHandler conf ci pd rm rs).err = some e) :
    (isReleaseStepErr e = false →
        ((cliHandler conf ci pd rm rs).effects.any isReleaseEffect) = false)
    ∧ (isReleaseStepErr e = false → e ≠ CliErr.commitNotFound →
        (cliHandler conf ci pd rm rs).effects = []) := by
  rcases cliHandler_cases conf ci pd rm rs with ⟨e', heq⟩ | ⟨cb, cs, release, heq⟩
  · rw [heq]
    exact ⟨fun _ => rfl, fun _ _ => rfl⟩
  · rw [heq] at h ⊢
    rcases afterRelease_cases conf cb cs release pd with ⟨e', heq2⟩ | ⟨commits, newVer, heq2⟩
    · rw [heq2]
      exact ⟨fun _ => rfl, fun _ _ => rfl⟩
    · rw [heq2] at h ⊢
      rcases finishRelease_cases conf cb cs commits release newVer pd with
        ⟨effs, hany, heq3⟩ | ⟨effs, heq3⟩ | ⟨effs, heq3⟩ | ⟨effs, heq3⟩ | ⟨effs, heq3⟩
          | ⟨effs, heq3⟩
      · rw [heq3] at h ⊢
        simp only [Option.some.injEq] at h
        subst h
        constructor
        · intro _
          exact hany
        · intro _ hne
          exact absurd rfl hne
      · rw [heq3] at h
        simp only [Option.some.injEq] at h
        subst h
        constructor
        · intro hstep
          simp [isReleaseStepErr] at hstep
        · intro hstep _
          simp [isReleaseStepErr] at hstep
      · rw [heq3] at h
        simp only [Option.some.injEq] at h
        subst h
        constructor
        · intro hstep
          simp [isReleaseStepErr] at hstep
        · intro hstep _
          simp [isReleaseStepErr] at hstep
      · rw [heq3] at h
        simp only [Option.some.injEq] at h
        subst h
        constructor
        · intro hstep
          simp [isReleaseStepErr] at hstep
        · intro hstep _
          simp [isReleaseStepErr] at hstep
      · rw [heq3] at h
        simp only [Option.some.injEq] at h
        subst h
        constructor
        · intro hstep
          simp [isReleaseStepErr] at hstep
        · intro hstep _
          simp [isReleaseStepErr] at hstep
      · rw [heq3] at h
        simp at h

/-- Claim C1 amended witness: a run failing at repository construction
performs no side effect. -/
theorem claim_C1_amended_witness :
    ((cliHandler
        ⟨"main", "main", "p", "", "", "", "", "", false, false, true, false, false⟩
        ⟨"main", "s"⟩
        ⟨true, .ok ("main", false), true, [], .ok [], none, true, true, true, "o", "r"⟩
        (fun _ _ => true) (fun _ _ => true)).effects.any isReleaseEffect) = false
    ∧ (cliHandler
        ⟨"main", "main", "p", "", "", "", "", "", false, false, true, false, false⟩
        ⟨"main", "s"⟩
        ⟨true, .ok ("main", false), true, [], .ok [], none, true, true, true, "o", "r"⟩
        (fun _ _ => true) (fun _ _ => true)).effects = [] := by
  have h := claim_C1_amended
    ⟨"main", "main", "p", "", "", "", "", "", false, false, true, false, false⟩
    ⟨"main", "s"⟩
    ⟨true, .ok ("main", false), true, [], .ok [], none, true, true, true, "o", "r"⟩
    (fun _ _ => true) (fun _ _ => true) CliErr.repoInit (by decide)
  exact ⟨h.1 (by decide), h.2 (by decide) (by decide)⟩

/-- Claim C8 counterexample: a successful release from the repository's
default branch `main` (reported by the provider and equal to the current
branch) creates no persistent branch reference, refuting the claim that
releases from the default branch always do. -/
theorem claim_C8_counterexample :
    (cliHandler
        ⟨"main", "main", "p", "", "", "abc", "", "", false, false, true, false, false⟩
        ⟨"main", "abc"⟩
        ⟨false, .ok ("main", false), true, [],
          .ok [⟨"abc", ["fix(p): x"], "fix", "p", "x", ⟨false, false, true⟩⟩], none, true, true, true, "o", "r"⟩
        (fun _ _ => true) (fun _ _ => true)).err = none
    ∧ ((cliHandler
        ⟨"main", "main", "p", "", "", "abc", "", "", false, false, true, false, false⟩
        ⟨"main", "abc"⟩
        ⟨false, .ok ("main", false), true, [],
          .ok [⟨"abc", ["fix(p): x"], "fix", "p", "x", ⟨false, false, true⟩⟩], none, true, true, true, "o", "r"⟩
        (fun _ _ => true) (fun _ _ => true)).effects.any isBranchCreate) = false :=
  ⟨by decide, by decide⟩

/-- Claim C8 amended: a successful release always creates the tag
`<pkg>-release-v<version>` and the provider release object, and creates the
persistent branch reference `<pkg>-branch-v<version>` exactly when the target
branch string literally equals `"master"` — not when it is the repository's
default branch. -/
theorem claim_C8_amended (changelog : String) (newVer : SemVer) (prerelease : Bool)
    (branch sha anchor pkg : String) :
    (CreateRelease changelog newVer prerelease branch sha anchor pkg none).2 = none
    ∧ Effect.createRef ("refs/tags/" ++ (pkg ++ "-release-v" ++ verString newVer)) anchor
        ∈ (CreateRelease changelog newVer prerelease branch sha anchor pkg none).1
    ∧ (branch = "master" →
        Effect.createRef ("refs/heads/" ++ (pkg ++ "-branch-v" ++ verString newVer)) anchor
          ∈ (CreateRelease changelog newVer prerelease branch sha anchor pkg none).1)
    ∧ (branch ≠ "master" →
        ((CreateRelease changelog newVer prerelease branch sha anchor pkg none).1.any
          isBranchCreate) = false) := by
  by_cases hb : branch = "master"
  · refine ⟨?_, ?_, ?_, ?_⟩ <;> simp [CreateRelease, hb, isBranchCreate, tags_not_heads]
  · refine ⟨?_, ?_, ?_, ?_⟩ <;> simp [CreateRelease, hb, isBranchCreate, tags_not_heads]

/-- Claim C8 amended witness: releasing on branch `master` creates the
branch reference, releasing on branch `dev` creates none. -/
theorem claim_C8_amended_witness :
    Effect.createRef ("refs/heads/" ++ ("p" ++ "-branch-v" ++ verString ⟨1, 0, 0, "", ""⟩)) "abc"
      ∈ (CreateRelease "log" ⟨1, 0, 0, "", ""⟩ false "master" "s" "abc" "p" none).1
    ∧ ((CreateRelease "log" ⟨1, 0, 0, "", ""⟩ false "dev" "s" "abc" "p" none).1.any
        isBranchCreate) = false :=
  ⟨(claim_C8_amended "log" ⟨1, 0, 0, "", ""⟩ false "master" "s" "abc" "p").2.2.1 rfl,
   (claim_C8_amended "log" ⟨1, 0, 0, "", ""⟩ false "dev" "s" "abc" "p").2.2.2 (by decide)⟩

/-- Claim C9: with an empty configured package scope, classification leaves
every commit unclassified — empty type, scope and subject, and all Change
flags false — even when the subject line matches the conventional pattern. -/
theorem claim_C9_empty_scope (sha msg : String) :
    (parseGithubCommit sha msg "").typ = ""
    ∧ (parseGithubCommit sha msg "").Scope = ""
    ∧ (parseGithubCommit sha msg "").Message = ""
    ∧ (parseGithubCommit sha msg "").change = ⟨false, false, false⟩ := by
  unfold parseGithubCommit
  cases h : splitLines msg with
  | nil => simp
  | cons first rest =>
      cases h2 : matchCommitPattern first with
      | none => simp [h2]
      | some tss =>
          obtain ⟨t, s, subj⟩ := tss
          simp [h2]

/-- Claim C5: a 404 on the tag listing (no tags exist at all) makes the
release selector return the zero Release (empty SHA, version 0.0.0) and no
error, signalling a first-ever release rather than a failure. -/
theorem claim_C5_no_tags (vrange : String) (re : Option (String → Bool))
    (pkg hotfix : String) (rangeSat : String → SemVer → Bool)
    (e : Bool) (refs : List TagRef) (rest : List Page) :
    GetLatestRelease vrange re pkg hotfix rangeSat (⟨404, e, refs⟩ :: rest)
      = .ok ⟨"", zeroVer⟩ := by
  simp [GetLatestRelease, getLatestReleaseAux]

/-- Claim C2: when the subject line matches the conventional pattern and the
parsed scope equals the configured (non-empty) package scope, classification
stores the type lowercased, sets minor exactly for `feat`, patch exactly for
`fix`, and major exactly when a breaking-change marker occurs anywhere in the
entire raw message. -/
theorem claim_C2_classification (sha msg pkg first t s subj : String)
    (rest : List String)
    (h0 : pkg ≠ "")
    (h1 : splitLines msg = first :: rest)
    (h2 : matchCommitPattern first = some (t, s, subj))
    (h3 : s = pkg) :
    (parseGithubCommit sha msg pkg).typ = lowerStr t
    ∧ ((parseGithubCommit sha msg pkg).change.Minor = true ↔ lowerStr t = "feat")
    ∧ ((parseGithubCommit sha msg pkg).change.Patch = true ↔ lowerStr t = "fix")
    ∧ (parseGithubCommit sha msg pkg).change.Major = breakingPattern msg := by
  unfold parseGithubCommit
  rw [h1]
  simp only [h2]
  subst h3
  simp [h0]

/-- Claim C2 witness: a plain `feat` commit in scope is classified with
type `feat`, minor set, major unset. -/
theorem claim_C2_classification_witness :
    (parseGithubCommit "abc" "feat(pkgA): add export" "pkgA").typ = "feat"
    ∧ (parseGithubCommit "abc" "feat(pkgA): add export" "pkgA").change.Minor = true
    ∧ (parseGithubCommit "abc" "feat(pkgA): add export" "pkgA").change.Major = false := by
  have h := claim_C2_classification "abc" "feat(pkgA): add export" "pkgA"
    "feat(pkgA): add export" "feat" "pkgA" "add export" [] (by decide) (by decide)
    (by decide) rfl
  exact ⟨h.1.trans (by decide), h.2.1.mpr (by decide), h.2.2.2.trans (by decide)⟩

/-- Claim C3: when the commit-set fold yields no qualifying bump, the
resolver falls back to a minor bump of the previous version on the default
line (current branch equals the configured base branch) and to a patch bump
on any other line. -/
theorem claim_C3_fallback (conf : Config) (commits : List Commit) (release : Release)
    (h : foldChange commits = none) :
    (conf.CurrentBranch = conf.BaseBranch →
        computeNewVersion conf commits release = IncMinor release.version)
    ∧ (conf.CurrentBranch ≠ conf.BaseBranch →
        computeNewVersion conf commits release = IncPatch release.version) := by
  unfold computeNewVersion
  rw [h]
  constructor
  · intro hb
    simp [hb]
  · intro hb
    simp [hb]

/-- Claim C3 witness: previous release 1.0.1 with an empty commit set yields
1.1.0 on the default branch and 1.0.2 on a hotfix branch. -/
theorem claim_C3_fallback_witness :
    computeNewVersion ⟨"main", "main", "p", "", "", "", "", "", false, false, true, false, false⟩
      [] ⟨"s", ⟨1, 0, 1, "", ""⟩⟩ = ⟨1, 1, 0, "", ""⟩
    ∧ computeNewVersion ⟨"main", "hotfix", "p", "", "", "", "", "", false, false, true, false, false⟩
      [] ⟨"s", ⟨1, 0, 1, "", ""⟩⟩ = ⟨1, 0, 2, "", ""⟩ := by
  have h1 := (claim_C3_fallback
    ⟨"main", "main", "p", "", "", "", "", "", false, false, true, false, false⟩
    [] ⟨"s", ⟨1, 0, 1, "", ""⟩⟩ (by decide)).1 rfl
  have h2 := (claim_C3_fallback
    ⟨"main", "hotfix", "p", "", "", "", "", "", false, false, true, false, false⟩
    [] ⟨"s", ⟨1, 0, 1, "", ""⟩⟩ (by decide)).2 (by decide)
  exact ⟨h1.trans (by decide), h2.trans (by decide)⟩

/-- Claim C6: when the maintained-version string carries a pre-release
component but the selected previous release has none, resolution fails fast
with the no-pre-release error before any side effect or version is produced. -/
theorem claim_C6_prerelease_guard (conf : Config) (cb cs : String)
    (release : Release) (pd : ProviderInput)
    (h1 : containsSubstring conf.MaintainedVersion "-" = true)
    (h2 : release.version.pre = "") :
    afterRelease conf cb cs release pd = ⟨[], some CliErr.noPrereleasePossible⟩ := by
  unfold afterRelease
  rw [h1]
  simp [h2]

/-- Claim C4: per-candidate processing of the release selector — a
`<pkg>-release-` prefix present on the tag (after the `refs/tags/` ref prefix
is removed) is stripped; a configured regex filter rejecting the stripped tag
discards the candidate; a stripped tag that does not parse as a semantic
version is silently discarded. -/
theorem claim_C4_tag_filter (pkg : String) (p : String → Bool) (r : TagRef) (rest : String) :
    (trimPref r.ref "refs/tags/" = pkg ++ "-release-" ++ rest →
        candidateTag pkg r.ref = rest)
    ∧ (p (candidateTag pkg r.ref) = false → processRef pkg (some p) r = none)
    ∧ (∀ re, NewVersion (candidateTag pkg r.ref) = none → processRef pkg re r = none) := by
  refine ⟨?_, ?_, ?_⟩
  · intro h
    unfold candidateTag
    rw [h]
    have hdata : (pkg ++ "-release-" ++ rest).data = (pkg ++ "-release-").data ++ rest.data := by
      simp [String.data_append]
    have hpre : ((pkg ++ "-release-").data).isPrefixOf ((pkg ++ "-release-" ++ rest).data) = true := by
      rw [hdata]
      exact List.isPrefixOf_iff_prefix.mpr (List.prefix_append _ _)
    have hcont : containsSubstring (pkg ++ "-release-" ++ rest) (pkg ++ "-release-") = true :=
      contains_of_isPrefixOf hpre
    simp only [hcont, if_true]
    simp only [trimPref, hpre, if_true]
    rw [hdata, List.drop_left, strMk_data]
  · intro h
    simp [processRef, h]
  · intro re h
    simp [processRef, h]

/-- Claim C4 witness: a scoped release tag is stripped to its version part; a
candidate rejected by the regex filter is discarded; a tag that is not a
semantic version is discarded without error. -/
theorem claim_C4_tag_filter_witness :
    candidateTag "pkgA" "refs/tags/pkgA-release-v1.2.3" = "v1.2.3"
    ∧ processRef "pkgA" (some (fun s => strStartsWith s "v"))
        ⟨"refs/tags/xyz", "commit", "s"⟩ = none
    ∧ processRef "pkgA" none ⟨"refs/tags/notasemver", "commit", "s"⟩ = none := by
  refine ⟨?_, ?_, ?_⟩
  · exact (claim_C4_tag_filter "pkgA" (fun _ => true)
      ⟨"refs/tags/pkgA-release-v1.2.3", "commit", "s"⟩ "v1.2.3").1 (by decide)
  · exact (claim_C4_tag_filter "pkgA" (fun s => strStartsWith s "v")
      ⟨"refs/tags/xyz", "commit", "s"⟩ "").2.1 (by decide)
  · exact (claim_C4_tag_filter "pkgA" (fun _ => true)
      ⟨"refs/tags/notasemver", "commit", "s"⟩ "").2.2 none (by decide)

/-- Claim C7: a configured anchor commit hash absent from the fetched
commits' SHAs makes resolution fail with the commit-not-found error; when a
fetched commit carries exactly that SHA and release creation succeeds, the
created tag reference points at exactly that SHA. -/
theorem claim_C7_anchor (conf : Config) (cb cs : String) (commits : List Commit)
    (release : Release) (newVer : SemVer) (pd : ProviderInput) :
    ((commits.any (fun c => c.SHA == conf.CommitHash)) = false →
        (finishRelease conf cb cs commits release newVer pd).err = some CliErr.commitNotFound)
    ∧ (pd.createFailAt = none →
        (commits.any (fun c => c.SHA == conf.CommitHash)) = true →
        Effect.createRef ("refs/tags/" ++ (conf.Pkgname ++ "-release-v" ++ verString newVer))
            conf.CommitHash
          ∈ (finishRelease conf cb cs commits release newVer pd).effects) := by
  constructor
  · intro h
    have ha : (anchorSHA commits conf.CommitHash).2 = false := by rw [anchor_snd, h]
    unfold finishRelease
    rw [if_pos ha]
  · intro hfail h
    have ha : anchorSHA commits conf.CommitHash = (conf.CommitHash, true) :=
      anchor_found _ _ h
    apply finishRelease_found_mem
    · simp [ha]
    · rw [ha, hfail]
      by_cases hb : cb = "master" <;> simp [CreateRelease, hb]

/-- Claim C7 witness: hash `zzz` absent from a one-commit list fails with
commit-not-found; hash `abc` present makes the tag reference point at `abc`. -/
theorem claim_C7_anchor_witness :
    (finishRelease ⟨"main", "main", "p", "", "", "zzz", "", "", false, false, true, false, false⟩
        "main" "s" [⟨"abc", ["m"], "", "", "", ⟨false, false, false⟩⟩]
        ⟨"sh", zeroVer⟩ ⟨0, 0, 1, "", ""⟩
        ⟨false, .ok ("main", false), true, [], .ok [], none, true, true, true, "o", "r"⟩).err
      = some CliErr.commitNotFound
    ∧ Effect.createRef "refs/tags/p-release-v0.0.1" "abc"
        ∈ (finishRelease ⟨"main", "main", "p", "", "", "abc", "", "", false, false, true, false, false⟩
            "main" "s" [⟨"abc", ["m"], "", "", "", ⟨false, false, false⟩⟩]
            ⟨"sh", zeroVer⟩ ⟨0, 0, 1, "", ""⟩
            ⟨false, .ok ("main", false), true, [], .ok [], none, true, true, true, "o", "r"⟩).effects := by
  constructor
  · exact (claim_C7_anchor
      ⟨"main", "main", "p", "", "", "zzz", "", "", false, false, true, false, false⟩
      "main" "s" [⟨"abc", ["m"], "", "", "", ⟨false, false, false⟩⟩]
      ⟨"sh", zeroVer⟩ ⟨0, 0, 1, "", ""⟩
      ⟨false, .ok ("main", false), true, [], .ok [], none, true, true, true, "o", "r"⟩).1 (by decide)
  · have h := (claim_C7_anchor
      ⟨"main", "main", "p", "", "", "abc", "", "", false, false, true, false, false⟩
      "main" "s" [⟨"abc", ["m"], "", "", "", ⟨false, false, false⟩⟩]
      ⟨"sh", zeroVer⟩ ⟨0, 0, 1, "", ""⟩
      ⟨false, .ok ("main", false), true, [], .ok [], none, true, true, true, "o", "r"⟩).2 rfl (by decide)
    simpa using h

/-- Claim C10: with an empty configured commit hash, resolution fails with
the commit-not-found error exactly when no fetched commit has an empty SHA
(the found flag is set only by an exact SHA match), and an empty fetched
commit list always fails. -/
theorem claim_C10_empty_hash (conf : Config) (cb cs : String) (commits : List Commit)
    (release : Release) (newVer : SemVer) (pd : ProviderInput)
    (h : conf.CommitHash = "") :
    ((finishRelease conf cb cs commits release newVer pd).err = some CliErr.commitNotFound
        ↔ ∀ c ∈ commits, c.SHA ≠ "")
    ∧ (commits = [] →
        (finishRelease conf cb cs commits release newVer pd).err
          = some CliErr.commitNotFound) := by
  constructor
  · by_cases hany : commits.any (fun c => c.SHA == conf.CommitHash) = true
    · have hfar := finishRelease_err_found conf cb cs commits release newVer pd
        (by rw [anchor_snd]; exact hany)
      have hne : ∃ c ∈ commits, c.SHA = "" := by
        rw [h] at hany
        simpa using hany
      constructor
      · intro herr
        exact absurd herr hfar
      · intro hall
        obtain ⟨c, hc, hcs⟩ := hne
        exact absurd hcs (hall c hc)
    · have ha : (anchorSHA commits conf.CommitHash).2 = false := by
        rw [anchor_snd]
        simpa using hany
      unfold finishRelease
      rw [if_pos ha]
      rw [h] at hany
      simp only [List.any_eq_true, not_exists, not_and] at hany
      constructor
      · intro _
        intro c hc
        intro hcs
        exact hany c hc (by simp [hcs])
      · intro _
        rfl
  · intro hnil
    subst hnil
    have ha : (anchorSHA [] conf.CommitHash).2 = false := by rw [anchor_snd]; rfl
    unfold finishRelease
    rw [if_pos ha]

/-- Claim C10 witness: empty hash with a commit list of non-empty SHAs fails
with commit-not-found, and so does an empty commit list. -/
theorem claim_C10_empty_hash_witness :
    (finishRelease ⟨"main", "main", "p", "", "", "", "", "", false, false, true, false, false⟩
        "main" "s" [⟨"abc", ["m"], "", "", "", ⟨false, false, false⟩⟩]
        ⟨"sh", zeroVer⟩ ⟨0, 0, 1, "", ""⟩
        ⟨false, .ok ("main", false), true, [], .ok [], none, true, true, true, "o", "r"⟩).err
      = some CliErr.commitNotFound
    ∧ (finishRelease ⟨"main", "main", "p", "", "", "", "", "", false, false, true, false, false⟩
        "main" "s" [] ⟨"sh", zeroVer⟩ ⟨0, 0, 1, "", ""⟩
        ⟨false, .ok ("main", false), true, [], .ok [], none, true, true, true, "o", "r"⟩).err
      = some CliErr.commitNotFound := by
  constructor
  · exact (claim_C10_empty_hash
      ⟨"main", "main", "p", "", "", "", "", "", false, false, true, false, false⟩
      "main" "s" [⟨"abc", ["m"], "", "", "", ⟨false, false, false⟩⟩]
      ⟨"sh", zeroVer⟩ ⟨0, 0, 1, "", ""⟩
      ⟨false, .ok ("main", false), true, [], .ok [], none, true, true, true, "o", "r"⟩ rfl).1.mpr (by decide)
  · exact (claim_C10_empty_hash
      ⟨"main", "main", "p", "", "", "", "", "", false, false, true, false, false⟩
      "main" "s" [] ⟨"sh", zeroVer⟩ ⟨0, 0, 1, "", ""⟩
      ⟨false, .ok ("main", false), true, [], .ok [], none, true, true, true, "o", "r"⟩ rfl).2 rfl

/-- Claim C6 witness: maintained version `1.2.0-beta` against a previous
release `1.2.0` (no pre-release) fails with the no-pre-release error. -/
theorem claim_C6_prerelease_guard_witness :
    afterRelease ⟨"main", "b", "p", "", "1.2.0-beta", "", "", "", false, false, true, false, false⟩
      "b" "s" ⟨"sh", ⟨1, 2, 0, "", ""⟩⟩
      ⟨false, .ok ("main", false), true, [], .ok [], none, true, true, true, "o", "r"⟩
      = ⟨[], some CliErr.noPrereleasePossible⟩ :=
  claim_C6_prerelease_guard _ _ _ _ _ (by decide) rfl
